import Mathlib

/-!
Verification development for the futures_flipper_gui trading engine core.

Python floats are modelled as exact rationals (ℚ), Python ints as ℤ/ℕ,
raised exceptions as `Except.error`, and in-place mutation of dataclasses
as explicit state passing.  Optional dict entries become `Option` fields;
the Python truthiness idiom `a or b` over numbers (where `0` is falsy)
is modelled by `orChainQ`, and over strings (where `""` is falsy) by
`orStr`.  `market_info = none` models both a `None` argument and an empty
(falsy) dict, since `_resolve_market` tests the dict with `if market_info:`.
-/

namespace FlipperCore

/-! ## Shared Python-idiom helpers -/

/-- Model of the Python idiom `x or default` for an optional string,
where the empty string is falsy. -/
def orStr (x : Option String) (default : String) : String :=
  match x with
  | some s => if s = "" then default else s
  | none => default

/-- Lower-casing as a computable function on the character list
(`str.lower()`; `String.toLower` itself is not kernel-reducible). -/
def pyToLower (s : String) : String := ⟨s.data.map Char.toLower⟩

/-- Whitespace stripping at both ends (`str.strip()`), computable. -/
def pyTrim (s : String) : String :=
  ⟨((s.data.dropWhile Char.isWhitespace).reverse.dropWhile
      Char.isWhitespace).reverse⟩

/-- Model of a Python `a or b or ... or 0.0` chain over optional numbers,
where `0` is falsy: the first present non-zero value, else `0`. -/
def orChainQ : List (Option ℚ) → ℚ
  | [] => 0
  | x :: rest =>
    match x with
    | some v => if v = 0 then orChainQ rest else v
    | none => orChainQ rest

/-- First present value among a list of optional numbers (models
`_first_float`, which returns the first parseable key). -/
def firstSome : List (Option ℚ) → Option ℚ
  | [] => none
  | x :: rest =>
    match x with
    | some v => some v
    | none => firstSome rest

/-- Round half to even on an exact rational, the rounding Python's
built-in `round` uses (idealized to exact arithmetic). -/
def roundHalfEven (x : ℚ) : ℤ :=
  let f : ℤ := ⌊x⌋
  let frac : ℚ := x - f
  if frac < 1/2 then f
  else if 1/2 < frac then f + 1
  else if f % 2 = 0 then f else f + 1

/-- Python `round(x, p)` for `p ≥ 0` decimal digits, on exact rationals. -/
def pyRound (x : ℚ) (p : ℕ) : ℚ :=
  (roundHalfEven (x * 10 ^ p) : ℚ) / 10 ^ p

/-! ## Position sizing (`app/core/sizing.py`)

Venue market metadata is the parsed view of the ccxt market dict:
`limits.amount.min/step`, `limits.cost.min`, `precision.amount`,
`info.{minQty,minVol,min_volume,min_order_qty}` and `contractSize`,
each optional (absent or unparseable keys become `none`). -/

structure MarketD where
  amount_min : Option ℚ := none
  amount_step : Option ℚ := none
  cost_min : Option ℚ := none
  precision_amount : Option ℤ := none
  info_minQty : Option ℚ := none
  info_minVol : Option ℚ := none
  info_min_volume : Option ℚ := none
  info_min_order_qty : Option ℚ := none
  contractSize : Option ℚ := none
  deriving DecidableEq, Repr

/-- The empty market dict returned by `_resolve_market` when nothing is
resolvable. -/
def emptyMarket : MarketD := {}

/-- A ccxt exchange handle as seen by `_resolve_market`: the `market(symbol)`
call (which may raise, or return a falsy market, both folded into the
`Except`/`Option`), and the `markets` dict lookup. -/
structure SizExchange where
  market : String → Except String (Option MarketD)
  markets : String → Option MarketD

/-- A client as seen by the sizer: it may or may not carry an `exchange`
attribute. -/
structure SizClient where
  exchange : Option SizExchange := none

/-- Model of `_resolve_market`.  The second component is ghost
instrumentation recording whether the client's exchange was consulted. -/
def resolve_market (market_info : Option MarketD) (symbol : Option String)
    (client : Option SizClient) : MarketD × Bool :=
  match market_info with
  | some m => (m, false)
  | none =>
    match client, symbol with
    | some c, some s =>
      if s = "" then (emptyMarket, false)
      else
        match c.exchange with
        | none => (emptyMarket, false)
        | some ex =>
          match ex.market s with
          | .ok (some m) => (m, true)
          | _ =>
            match ex.markets s with
            | some m => (m, true)
            | none => (emptyMarket, true)
    | _, _ => (emptyMarket, false)

/-- Model of `_resolve_min_qty`: returns `(min_qty, step, precision_amount)`.
Includes the contract-size scaling and the high-price fallback quirk
(`min_qty >= 1 and price >= 100` replaces the venue minimum by the step
or the precision-derived minimum). -/
def resolve_min_qty (price : ℚ) (market : MarketD) :
    Option ℚ × Option ℚ × Option ℤ :=
  let precision_amount := market.precision_amount
  let step := market.amount_step
  let min_qty :=
    match market.amount_min with
    | some v => some v
    | none =>
      firstSome [market.info_minQty, market.info_minVol,
                 market.info_min_volume, market.info_min_order_qty]
  let min_qty :=
    match market.contractSize, min_qty with
    | some cs, some mq =>
      if cs ≠ 0 ∧ mq ≠ 0 ∧ 1 ≤ mq then some (mq * cs) else some mq
    | _, _ => min_qty
  let min_qty :=
    match min_qty with
    | some mq =>
      if 1 ≤ mq ∧ 100 ≤ price then
        match step with
        | some s =>
          if 0 < s then some s
          else
            match precision_amount with
            | some p => if 0 ≤ p then some ((1 : ℚ) / 10 ^ p.toNat) else some mq
            | none => some mq
        | none =>
          match precision_amount with
          | some p => if 0 ≤ p then some ((1 : ℚ) / 10 ^ p.toNat) else some mq
          | none => some mq
      else some mq
    | none => none
  let step :=
    match step with
    | some s => some s
    | none =>
      match precision_amount with
      | some p => if 0 ≤ p then some ((1 : ℚ) / 10 ^ p.toNat) else none
      | none => none
  (min_qty, step, precision_amount)

/-- Model of `apply_precision`: round to `precision` decimal digits when
given, then floor to a multiple of `step` when given; the flag records
whether the value changed beyond the `1e-12` tolerance. -/
def apply_precision (amount : ℚ) (precision : Option ℤ) (step : Option ℚ) :
    ℚ × Bool :=
  if amount ≤ 0 then (0, false)
  else
    let original := amount
    let result := original
    let result :=
      match precision with
      | some p => if 0 ≤ p then pyRound result p.toNat else result
      | none => result
    let result :=
      match step with
      | some s => if 0 < s then (⌊result / s⌋ : ℚ) * s else result
      | none => result
    let changed := |result - original| > 1 / 10 ^ 12
    (max 0 result, changed)

/-- Diagnostic figures returned by the sizer (the `details` dict). -/
structure SizingDetails where
  qty_raw : ℚ
  qty_rounded : ℚ
  min_qty : Option ℚ
  min_cost : Option ℚ
  step : Option ℚ
  precision_amount : Option ℤ
  cost : ℚ
  deriving DecidableEq, Repr

/-- Model of `compute_order_amount`.  The outer `Except` models the
`ValueError` raised for non-positive price or leverage; the `.ok` payload
mirrors the Python `(amount | None, reason | None, details)` triple. -/
def compute_order_amount (price margin_usdt : ℚ) (leverage : ℤ)
    (market_info : Option MarketD := none) (symbol : Option String := none)
    (client : Option SizClient := none) :
    Except String (Option ℚ × Option String × SizingDetails) :=
  if price ≤ 0 then .error "price must be > 0"
  else if leverage ≤ 0 then .error "leverage must be > 0"
  else
    let market := (resolve_market market_info symbol client).1
    let r := resolve_min_qty price market
    let min_qty := r.1
    let step := r.2.1
    let precision_amount := r.2.2
    let min_cost := market.cost_min
    if margin_usdt ≤ 0 then
      .ok (none, some "Non-positive margin",
        { qty_raw := 0, qty_rounded := 0, min_qty := min_qty,
          min_cost := min_cost, step := step,
          precision_amount := precision_amount, cost := 0 })
    else
      let notional := margin_usdt * (leverage : ℚ)
      let qty_raw := notional / price
      let qty_rounded := (apply_precision qty_raw precision_amount step).1
      let cost := qty_rounded * price
      let details : SizingDetails :=
        { qty_raw := qty_raw, qty_rounded := qty_rounded, min_qty := min_qty,
          min_cost := min_cost, step := step,
          precision_amount := precision_amount, cost := cost }
      if qty_rounded ≤ 0 then
        .ok (none, some "qty_after_round <= 0", details)
      else
        match min_qty with
        | some mq =>
          if qty_rounded < mq then
            .ok (none, some ("qty_rounded < minQty (" ++ toString qty_rounded
              ++ " < " ++ toString mq ++ ")"), details)
          else
            match min_cost with
            | some mc =>
              if cost < mc then
                .ok (none, some ("notional < minCost (" ++ toString cost
                  ++ " < " ++ toString mc ++ ")"), details)
              else .ok (some qty_rounded, none, details)
            | none => .ok (some qty_rounded, none, details)
        | none =>
          match min_cost with
          | some mc =>
            if cost < mc then
              .ok (none, some ("notional < minCost (" ++ toString cost
                ++ " < " ++ toString mc ++ ")"), details)
            else .ok (some qty_rounded, none, details)
          | none => .ok (some qty_rounded, none, details)

/-! ## Exit management (`app/core/exits.py`)

`evaluate_exit` mutates its `PositionState` argument in place; the model
returns the updated state alongside the decision. -/

structure PositionState where
  symbol : String
  side : String
  amount : ℚ
  entry_price : ℚ
  opened_ts : ℚ
  tp_price : ℚ
  sl_price : ℚ
  initial_sl_price : ℚ
  break_even_moved : Bool := false
  tp_order_id : Option String := none
  sl_order_id : Option String := none
  deriving DecidableEq, Repr

structure ExitDecision where
  should_close : Bool
  reason : String := ""
  exit_price : Option ℚ := none
  break_even_moved : Bool := false
  deriving DecidableEq, Repr

/-- Typed view of the exit-relevant settings, after the `_as_int` /
`_as_float` / `_as_bool` parsing of the settings dict. -/
structure ExitSettings where
  max_trade_duration_sec : ℤ := 45
  break_even_trigger_pct : ℚ := 1/10
  break_even_offset_pct : ℚ := 1/50
  break_even_enabled : Bool := true
  deriving DecidableEq, Repr

/-- The terminal TP/SL/time checks of `evaluate_exit` (the part after the
break-even block); never mutates the position. -/
def exit_terminal_checks (position : PositionState) (last_price : ℚ)
    (settings : ExitSettings) (now_ts : ℚ) : ExitDecision :=
  if position.side = "buy" then
    if position.tp_price ≤ last_price then
      { should_close := true, reason := "tp_hit", exit_price := some last_price }
    else if last_price ≤ position.sl_price then
      { should_close := true, reason := "sl_hit", exit_price := some last_price }
    else if (settings.max_trade_duration_sec : ℚ) ≤ now_ts - position.opened_ts then
      { should_close := true, reason := "time_stop", exit_price := some last_price }
    else { should_close := false }
  else
    if last_price ≤ position.tp_price then
      { should_close := true, reason := "tp_hit", exit_price := some last_price }
    else if position.sl_price ≤ last_price then
      { should_close := true, reason := "sl_hit", exit_price := some last_price }
    else if (settings.max_trade_duration_sec : ℚ) ≤ now_ts - position.opened_ts then
      { should_close := true, reason := "time_stop", exit_price := some last_price }
    else { should_close := false }

/-- Model of `evaluate_exit`: break-even ratchet first (mutating the
stop-loss on its firing path only), then the terminal checks in the fixed
priority tp_hit, sl_hit, time_stop. -/
def evaluate_exit (position : PositionState) (last_price : ℚ)
    (settings : ExitSettings) (now_ts : ℚ) : PositionState × ExitDecision :=
  if settings.break_even_enabled ∧ ¬ position.break_even_moved then
    if position.side = "buy" then
      let trigger_price := position.entry_price * (1 + settings.break_even_trigger_pct / 100)
      if trigger_price ≤ last_price then
        let position := { position with
          sl_price := position.entry_price * (1 + settings.break_even_offset_pct / 100),
          break_even_moved := true }
        (position, { should_close := false, reason := "break_even_moved",
                     break_even_moved := true })
      else (position, exit_terminal_checks position last_price settings now_ts)
    else
      let trigger_price := position.entry_price * (1 - settings.break_even_trigger_pct / 100)
      if last_price ≤ trigger_price then
        let position := { position with
          sl_price := position.entry_price * (1 - settings.break_even_offset_pct / 100),
          break_even_moved := true }
        (position, { should_close := false, reason := "break_even_moved",
                     break_even_moved := true })
      else (position, exit_terminal_checks position last_price settings now_ts)
  else (position, exit_terminal_checks position last_price settings now_ts)

/-- Model of `compute_tp_sl`. -/
def compute_tp_sl (entry_price : ℚ) (side : String) (tp_pct sl_pct : ℚ) : ℚ × ℚ :=
  if side = "buy" then
    (entry_price * (1 + tp_pct / 100), entry_price * (1 - sl_pct / 100))
  else
    (entry_price * (1 - tp_pct / 100), entry_price * (1 + sl_pct / 100))

/-! ## Round-robin candidate selection (`TradingEngine._select_round_robin`)

The cursor `_round_robin_index` (initialized to 0) is passed and returned
explicitly. -/

/-- Model of `_select_round_robin`: select up to `limit` consecutive
candidates starting at the cursor (wrapping), advance the cursor by the
number selected modulo the list length. -/
def select_round_robin {α : Type} (ordered : List α) (limit cursor : ℕ) :
    List α × ℕ :=
  if h : ordered.isEmpty ∨ limit ≤ 0 then ([], cursor)
  else
    have hL : 0 < ordered.length := by
      rcases List.isEmpty_iff.not.mp (fun he => h (Or.inl he)) with hne
      · exact List.length_pos.mpr (by simpa using hne)
    let L := ordered.length
    (((List.range (min limit L)).map fun i =>
        ordered.get ⟨(cursor % L + i) % L, Nat.mod_lt _ hL⟩),
     (cursor % L + min limit L) % L)

/-- Iterate round-robin selection for a number of ticks over an unchanged
ranked list, concatenating the selections. -/
def rr_run {α : Type} (ordered : List α) (limit : ℕ) :
    ℕ → ℕ → List α × ℕ
  | 0, cursor => ([], cursor)
  | t + 1, cursor =>
    let step := select_round_robin ordered limit cursor
    let rest := rr_run ordered limit t step.2
    (step.1 ++ rest.1, rest.2)

/-! ## Persisted store (`app/core/storage.py`), pure model

Only the operations used by `sync_exchange_state` and the restore path
are modelled: the orders table (append-only insert, delete-not-in over
non-closed/canceled rows) and the positions table (upsert keyed on the
unique `symbol` column, delete-not-in). -/

structure OrderRow where
  ts : String
  symbol : String
  kind : String
  order_id : String
  status : String
  meta_json : String
  deriving DecidableEq, Repr

structure PositionRow where
  symbol : String
  side : String
  amount : ℚ
  entry_price : ℚ
  unrealized_pnl : ℚ
  status : String
  meta_json : String
  deriving DecidableEq, Repr

structure Storage where
  orders : List OrderRow := []
  positions : List PositionRow := []
  deriving DecidableEq, Repr

/-- `Storage.insert_order`: plain SQL INSERT, appended to the table. -/
def Storage.insert_order (st : Storage) (row : OrderRow) : Storage :=
  { st with orders := st.orders ++ [row] }

/-- Whether an order row counts as open for `list_open_orders` and the
delete-not-in purge (`status NOT IN ('closed', 'canceled')`). -/
def orderRowOpen (r : OrderRow) : Bool :=
  ¬ (r.status = "closed" ∨ r.status = "canceled")

/-- `Storage.delete_open_orders_not_in`: with an empty id list this is
`DELETE FROM orders WHERE status NOT IN ('closed','canceled')`; otherwise
open rows whose id is outside the list are deleted. -/
def Storage.delete_open_orders_not_in (st : Storage) (ids : List String) : Storage :=
  { st with orders := st.orders.filter fun r =>
      ¬ orderRowOpen r ∨ r.order_id ∈ ids }

/-- `Storage.upsert_position`: INSERT ... ON CONFLICT(symbol) DO UPDATE. -/
def Storage.upsert_position (st : Storage) (row : PositionRow) : Storage :=
  if st.positions.any fun r => r.symbol = row.symbol then
    { st with positions := st.positions.map fun r =>
        if r.symbol = row.symbol then row else r }
  else { st with positions := st.positions ++ [row] }

/-- `Storage.delete_positions_not_in`: with an empty symbol list this is
`DELETE FROM positions`; otherwise rows outside the list are deleted. -/
def Storage.delete_positions_not_in (st : Storage) (symbols : List String) : Storage :=
  { st with positions := st.positions.filter fun r => r.symbol ∈ symbols }

/-! ## State reconciliation (`app/core/state_sync.py`) -/

/-- An order as reported by `client.fetch_open_orders()`: the dict keys
read by the sync, plus `raw` standing for its `json.dumps`. -/
structure ExchOrder where
  id : Option String := none
  symbol : Option String := none
  status : Option String := none
  type : Option String := none
  timestamp : Option String := none
  datetime : Option String := none
  raw : String := ""
  deriving DecidableEq, Repr

/-- A position as reported by `client.fetch_positions()`. -/
structure ExchPosition where
  symbol : Option String := none
  side : Option String := none
  contracts : Option ℚ := none
  positionAmt : Option ℚ := none
  size : Option ℚ := none
  entryPrice : Option ℚ := none
  entry_price : Option ℚ := none
  markPrice : Option ℚ := none
  unrealizedPnl : Option ℚ := none
  unrealized_pnl : Option ℚ := none
  raw : String := ""
  deriving DecidableEq, Repr

/-- Outcome of `client.fetch_positions()`: a list, `NotImplementedError`,
or another exception. -/
inductive FetchPositions where
  | ok (positions : List ExchPosition)
  | notImplemented
  | err (msg : String)
  deriving DecidableEq, Repr

/-- One sync step over the order list: insert the row and collect its id,
skipping orders with an empty/missing id. -/
def syncOrdersFold (acc : Storage × List String) (order : ExchOrder) :
    Storage × List String :=
  let order_id := orStr order.id ""
  if order_id = "" then acc
  else
    let row : OrderRow :=
      { ts := orStr order.timestamp (orStr order.datetime ""),
        symbol := orStr order.symbol "",
        kind := orStr order.type "unknown",
        order_id := order_id,
        status := orStr order.status "open",
        meta_json := order.raw }
    (acc.1.insert_order row, acc.2 ++ [order_id])

/-- One sync step over the position list: upsert rows with a symbol and a
non-zero contract count, collecting the symbol. -/
def syncPositionsFold (acc : Storage × List String) (pos : ExchPosition) :
    Storage × List String :=
  let symbol := orStr pos.symbol ""
  if symbol = "" then acc
  else
    let contracts := orChainQ [pos.contracts, pos.positionAmt, pos.size]
    if contracts = 0 then acc
    else
      let side := pyToLower (orStr pos.side (if 0 < contracts then "long" else "short"))
      let row : PositionRow :=
        { symbol := symbol, side := side, amount := |contracts|,
          entry_price := orChainQ [pos.entryPrice, pos.entry_price, pos.markPrice],
          unrealized_pnl := orChainQ [pos.unrealizedPnl, pos.unrealized_pnl],
          status := "open", meta_json := pos.raw }
      (acc.1.upsert_position row, acc.2 ++ [symbol])

/-- Model of `sync_exchange_state`.  The two fetch outcomes are supplied
as values; a failed fetch is caught (warning appended) and replaced by an
empty list, after which the upsert/delete-not-in reconciliation runs
unconditionally.  Returns the new storage, the counts, and the warnings
logged.  The function is total: no exception propagates. -/
def sync_exchange_state (st : Storage)
    (fetch_open_orders : Except String (List ExchOrder))
    (fetch_positions : FetchPositions) :
    Storage × ℕ × ℕ × List String :=
  let (open_orders, w1) :=
    match fetch_open_orders with
    | .ok orders => (orders, ([] : List String))
    | .error exc =>
      ([], ["State sync: failed to fetch open orders: " ++ exc])
  let (positions, w2) :=
    match fetch_positions with
    | .ok ps => (ps, ([] : List String))
    | .notImplemented =>
      ([], ["State sync: fetch_positions is not supported, using empty list"])
    | .err exc => ([], ["State sync: failed to fetch positions: " ++ exc])
  let (st, order_ids) := open_orders.foldl syncOrdersFold (st, [])
  let st := st.delete_open_orders_not_in order_ids
  let synced_orders := order_ids.length
  let (st, symbols) := positions.foldl syncPositionsFold (st, [])
  let st := st.delete_positions_not_in symbols
  let synced_positions := symbols.length
  (st, synced_positions, synced_orders, w1 ++ w2)

/-! ## Restoring positions on engine start
(`TradingEngine._restore_positions_from_storage`)

The Python code rebuilds a dict symbol → PositionState from the persisted
`positions` rows, with `opened_ts=time.time()` — the restore time `now`,
passed explicitly here.  The dict is modelled as an insertion-ordered
association list with overwriting upsert. -/

/-- Substring test, `pat in s` in Python. -/
def strContains (s pat : String) : Bool :=
  decide (List.IsInfix pat.toList s.toList)

/-- Python dict insertion: overwrite in place if the key exists, else
append. -/
def dictUpsert {β : Type} : List (String × β) → String → β → List (String × β)
  | [], k, v => [(k, v)]
  | (k0, v0) :: rest, k, v =>
    if k0 = k then (k, v) :: rest else (k0, v0) :: dictUpsert rest k v

/-- Python dict lookup with a default. -/
def dictGetD {β : Type} (l : List (String × β)) (k : String) (default : β) : β :=
  match l.find? fun kv => kv.1 = k with
  | some kv => kv.2
  | none => default

/-- A row of the `pairs` table as read by `TradingEngine._pair_value`. -/
structure PairRow where
  symbol : String
  tp_pct : Option ℚ := none
  sl_pct : Option ℚ := none
  deriving DecidableEq, Repr

/-- Model of `TradingEngine._pair_value`: the first pair row matching the
symbol wins; a missing, zero (falsy) or unparseable value gives the
default. -/
def pair_value (pairs : List PairRow) (symbol : String)
    (key : PairRow → Option ℚ) (default : ℚ) : ℚ :=
  match pairs.find? fun pr => pr.symbol = symbol with
  | some pr =>
    match key pr with
    | some v => if v = 0 then default else v
    | none => default
  | none => default

/-- The per-symbol resting TP/SL order-id slots built from persisted open
orders. -/
structure TpSlRef where
  tp : Option String := none
  sl : Option String := none
  deriving DecidableEq, Repr

/-- One step of the TP/SL heuristic over a persisted open-order row:
`"tp" in kind or "reduceonly": true in meta` marks the TP slot,
`"sl"/"stop" in kind or "stopprice" in meta` marks the SL slot. -/
def tpSlFold (acc : List (String × TpSlRef)) (order : OrderRow) :
    List (String × TpSlRef) :=
  let symbol := order.symbol
  if symbol = "" then acc
  else
    let slot := dictGetD acc symbol {}
    let kind := pyToLower order.kind
    let meta := pyToLower order.meta_json
    let slot :=
      if strContains kind "tp" ∨ strContains meta "\x22reduceonly\x22: true" then
        { slot with tp := some order.order_id }
      else slot
    let slot :=
      if strContains kind "sl" ∨ strContains kind "stop"
          ∨ strContains meta "\x22stopprice\x22" then
        { slot with sl := some order.order_id }
      else slot
    dictUpsert acc symbol slot

/-- One step of the position-restore loop over a persisted position row:
rows with an empty symbol or non-positive amount/entry price are dropped,
otherwise a `PositionState` with `opened_ts = now` is upserted into the
restored dict. -/
def restoreFold (pairs : List PairRow)
    (tp_sl_by_symbol : List (String × TpSlRef)) (now : ℚ)
    (restored : List (String × PositionState)) (row : PositionRow) :
    List (String × PositionState) :=
  let symbol := row.symbol
  if symbol = "" then restored
  else
    let side := pyToLower (orStr (some row.side) "buy")
    let amount := row.amount
    let entry_price := row.entry_price
    if amount ≤ 0 ∨ entry_price ≤ 0 then restored
    else
      let tp_pct := pair_value pairs symbol (fun pr => pr.tp_pct) (12/100)
      let sl_pct := pair_value pairs symbol (fun pr => pr.sl_pct) (25/100)
      let dir := if side = "long" ∨ side = "buy" then "buy" else "sell"
      let tpsl := compute_tp_sl entry_price dir tp_pct sl_pct
      let ref := dictGetD tp_sl_by_symbol symbol {}
      dictUpsert restored symbol
        { symbol := symbol, side := dir, amount := amount,
          entry_price := entry_price, opened_ts := now,
          tp_price := tpsl.1, sl_price := tpsl.2,
          initial_sl_price := tpsl.2,
          tp_order_id := ref.tp, sl_order_id := ref.sl }

/-- Model of `TradingEngine._restore_positions_from_storage`, with the
restore wall-clock time `now` (the `time.time()` call) as a parameter. -/
def restore_positions_from_storage (position_rows : List PositionRow)
    (open_orders : List OrderRow) (pairs : List PairRow) (now : ℚ) :
    List (String × PositionState) :=
  let tp_sl_by_symbol := open_orders.foldl tpSlFold []
  position_rows.foldl (restoreFold pairs tp_sl_by_symbol now) []

/-! ## Entry execution (`app/core/executor.py`)

The exchange client is an oracle with fixed responses per call shape
(sufficient to express the "polls return open forever" scenario); every
call is recorded in an event trace.  The limit-order poll loop runs with
an idealized clock: network calls are instantaneous and each `sleep(1.0)`
advances time by one second, so a `timeout_sec` window holds exactly
`timeout_sec` poll iterations. -/

structure EntryResult where
  success : Bool
  status : String
  order_id : Option String := none
  filled : ℚ := 0
  avg_price : Option ℚ := none
  reason : String := ""
  deriving DecidableEq, Repr

/-- A ccxt order dict as read by the executor. -/
structure PyOrder where
  id : Option String := none
  status : Option String := none
  filled : Option ℚ := none
  average : Option ℚ := none
  deriving DecidableEq, Repr

structure Ticker where
  last : Option ℚ := none
  close : Option ℚ := none
  deriving DecidableEq, Repr

/-- Typed view of the executor-relevant settings after dict parsing. -/
structure ExecSettings where
  entry_order_type : String := "market"
  min_fill_pct : ℚ := 80
  entry_retry_count : ℤ := 0
  entry_timeout_sec : ℤ := 30
  allow_market_fallback : Bool := false
  limit_offset_bps : ℚ := 2
  deriving DecidableEq, Repr

/-- Exchange calls recorded by the executor model. -/
inductive ExecEvent where
  | fetchTicker (symbol : String)
  | createLimit (symbol side : String) (amount price : ℚ)
  | createMarket (symbol side : String) (amount : ℚ)
  | fetchOrder (order_id symbol : String)
  | cancelOrder (order_id symbol : String)
  deriving DecidableEq, Repr

def ExecEvent.isCreateLimit : ExecEvent → Bool
  | .createLimit _ _ _ _ => true
  | _ => false

def ExecEvent.isCreateMarket : ExecEvent → Bool
  | .createMarket _ _ _ => true
  | _ => false

def ExecEvent.isCancel : ExecEvent → Bool
  | .cancelOrder _ _ => true
  | _ => false

/-- The exchange client oracle used by the executor. -/
structure ExecClient where
  fetch_ticker : String → Except String Ticker
  create_limit_order : String → String → ℚ → ℚ → Except String PyOrder
  create_market_order : String → String → ℚ → Except String PyOrder
  fetch_order : String → String → Except String PyOrder
  cancel_order : String → String → Except String Unit

/-- Model of `_result_from_order`: success iff the fill percentage meets
the configured minimum. -/
def result_from_order (order : PyOrder) (requested_amount min_fill_pct : ℚ) :
    EntryResult :=
  let ids := orStr order.id ""
  let order_id := if ids = "" then none else some ids
  let status := orStr order.status "unknown"
  let filled := order.filled.getD 0
  let avg_price := order.average
  let fill_pct := if 0 < requested_amount then filled / requested_amount * 100 else 0
  if min_fill_pct ≤ fill_pct then
    { success := true, status := status, order_id := order_id,
      filled := filled, avg_price := avg_price }
  else
    { success := false, status := status, order_id := order_id,
      filled := filled, avg_price := avg_price,
      reason := "fill_pct " ++ toString fill_pct ++ " < min_fill_pct "
        ++ toString min_fill_pct }

/-- Model of `_place_market`. -/
def place_market (symbol side : String) (amount min_fill_pct : ℚ)
    (client : ExecClient) (events : List ExecEvent) :
    EntryResult × List ExecEvent :=
  let events := events ++ [.createMarket symbol side amount]
  match client.create_market_order symbol side amount with
  | .error exc => ({ success := false, status := "error", reason := exc }, events)
  | .ok order => (result_from_order order amount min_fill_pct, events)

/-- The status-poll loop of `_place_limit_with_timeout`: one iteration per
second of the timeout window; a poll failure or a non-terminal status
sleeps one second and retries; `none` means the window elapsed. -/
def poll_order_loop (client : ExecClient) (order_id symbol : String)
    (amount min_fill_pct : ℚ) :
    ℕ → List ExecEvent → Option EntryResult × List ExecEvent
  | 0, events => (none, events)
  | fuel + 1, events =>
    let events := events ++ [.fetchOrder order_id symbol]
    match client.fetch_order order_id symbol with
    | .error _ =>
      poll_order_loop client order_id symbol amount min_fill_pct fuel events
    | .ok refreshed =>
      let status := pyToLower (refreshed.status.getD "")
      if status = "closed" ∨ status = "filled" then
        (some (result_from_order refreshed amount min_fill_pct), events)
      else
        poll_order_loop client order_id symbol amount min_fill_pct fuel events

/-- The attempt loop of `_place_limit_with_timeout`, recursing on the
remaining attempts.  Each attempt: fetch the ticker, place an offset limit
order, poll until the timeout, then cancel, re-check once, and either
accept the discovered fill, retry, fall back to a market order, or fail.
A submission exception is treated like a timeout for retry/fallback. -/
def limit_attempt_loop (symbol side : String) (amount : ℚ)
    (timeout_sec : ℕ) (allow_market_fallback : Bool)
    (limit_offset_bps min_fill_pct : ℚ) (client : ExecClient) :
    ℕ → List ExecEvent → EntryResult × List ExecEvent
  | 0, events =>
    ({ success := false, status := "timeout", reason := "entry retries exhausted" },
     events)
  | n + 1, events =>
    let events := events ++ [.fetchTicker symbol]
    match client.fetch_ticker symbol with
    | .error exc =>
      if n = 0 then
        if allow_market_fallback then
          place_market symbol side amount min_fill_pct client events
        else ({ success := false, status := "error", reason := exc }, events)
      else
        limit_attempt_loop symbol side amount timeout_sec allow_market_fallback
          limit_offset_bps min_fill_pct client n events
    | .ok ticker =>
      let last_price := orChainQ [ticker.last, ticker.close]
      if last_price ≤ 0 then
        if n = 0 then
          if allow_market_fallback then
            place_market symbol side amount min_fill_pct client events
          else
            ({ success := false, status := "error",
               reason := "ticker price unavailable" }, events)
        else
          limit_attempt_loop symbol side amount timeout_sec allow_market_fallback
            limit_offset_bps min_fill_pct client n events
      else
        let limit_price :=
          if pyToLower side = "buy" then last_price * (1 - limit_offset_bps / 10000)
          else last_price * (1 + limit_offset_bps / 10000)
        let events := events ++ [.createLimit symbol side amount limit_price]
        match client.create_limit_order symbol side amount limit_price with
        | .error exc =>
          if n = 0 then
            if allow_market_fallback then
              place_market symbol side amount min_fill_pct client events
            else ({ success := false, status := "error", reason := exc }, events)
          else
            limit_attempt_loop symbol side amount timeout_sec allow_market_fallback
              limit_offset_bps min_fill_pct client n events
        | .ok order =>
          let order_id := orStr order.id ""
          match poll_order_loop client order_id symbol amount min_fill_pct
              timeout_sec events with
          | (some res, events) => (res, events)
          | (none, events) =>
            let events := events ++ [.cancelOrder order_id symbol]
            let events := events ++ [.fetchOrder order_id symbol]
            let recheck : Option EntryResult :=
              match client.fetch_order order_id symbol with
              | .ok latest =>
                let res := result_from_order latest amount min_fill_pct
                if res.success then some res else none
              | .error _ => none
            match recheck with
            | some res => (res, events)
            | none =>
              if n = 0 then
                if allow_market_fallback then
                  place_market symbol side amount min_fill_pct client events
                else
                  ({ success := false, status := "timeout",
                     order_id := some order_id, reason := "entry timeout" },
                   events)
              else
                limit_attempt_loop symbol side amount timeout_sec
                  allow_market_fallback limit_offset_bps min_fill_pct client n
                  events

/-- Model of `_place_limit_with_timeout`: clamps retry count and timeout,
then runs `retry_count + 1` attempts. -/
def place_limit_with_timeout (symbol side : String) (amount : ℚ)
    (settings : ExecSettings) (min_fill_pct : ℚ) (client : ExecClient) :
    EntryResult × List ExecEvent :=
  let retry_count := max 0 settings.entry_retry_count
  let timeout_sec := max 1 settings.entry_timeout_sec
  let attempts := retry_count + 1
  limit_attempt_loop symbol side amount timeout_sec.toNat
    settings.allow_market_fallback settings.limit_offset_bps min_fill_pct
    client attempts.toNat []

/-- Model of `place_entry`. -/
def place_entry (symbol side : String) (amount : ℚ) (settings : ExecSettings)
    (client : ExecClient) : EntryResult × List ExecEvent :=
  if amount ≤ 0 then
    ({ success := false, status := "rejected", reason := "amount<=0" }, [])
  else
    let order_type := pyToLower (pyTrim settings.entry_order_type)
    let min_fill_pct := settings.min_fill_pct
    if order_type = "market" then
      place_market symbol side amount min_fill_pct client []
    else if order_type = "limit" then
      place_limit_with_timeout symbol side amount settings min_fill_pct client
    else
      ({ success := false, status := "rejected",
         reason := "unsupported_entry_order_type=" ++ order_type }, [])

/-- The position restored from a sample persisted row (symbol BTC/USDT,
side long, amount 2, entry 100) at restore time 1000, used as a concrete
instance. -/
def c9pos : PositionState :=
  { symbol := "BTC/USDT", side := "buy", amount := 2, entry_price := 100,
    opened_ts := 1000,
    tp_price := (compute_tp_sl 100 "buy" (12/100) (25/100)).1,
    sl_price := (compute_tp_sl 100 "buy" (12/100) (25/100)).2,
    initial_sl_price := (compute_tp_sl 100 "buy" (12/100) (25/100)).2 }

/-- A concrete exchange client for the limit-entry fallback scenario:
ticker last price 100, limit orders submit fine but every status poll
returns "open" with no fill, cancel succeeds, and the market order
fills. -/
def c6client : ExecClient :=
  { fetch_ticker := fun _ => .ok { last := some 100 },
    create_limit_order := fun _ _ _ _ =>
      .ok { id := some "L1", status := some "open", filled := some 0 },
    create_market_order := fun _ _ _ =>
      .ok { id := some "M1", status := some "closed", filled := some 1,
            average := some 100 },
    fetch_order := fun _ _ =>
      .ok { id := some "L1", status := some "open", filled := some 0 },
    cancel_order := fun _ _ => .ok () }

/-! ## Helper lemmas -/

/-- `dictUpsert` only ever holds values from the original dict or the
inserted value. -/
lemma dictUpsert_values {β : Type} (P : β → Prop) :
    ∀ (l : List (String × β)) (k : String) (v : β),
      (∀ x ∈ l, P x.2) → P v → ∀ x ∈ dictUpsert l k v, P x.2 := by
  intro l
  induction l with
  | nil =>
    intro k v _ hv x hx
    simp only [dictUpsert, List.mem_singleton] at hx
    rw [hx]
    exact hv
  | cons kv rest ih =>
    intro k v hl hv x hx
    rw [show dictUpsert (kv :: rest) k v =
        if kv.1 = k then (k, v) :: rest else kv :: dictUpsert rest k v from rfl] at hx
    split_ifs at hx
    · rcases List.mem_cons.mp hx with h | h
      · rw [h]; exact hv
      · exact hl x (List.mem_cons_of_mem _ h)
    · rcases List.mem_cons.mp hx with h | h
      · rw [h]; exact hl kv (List.mem_cons_self _ _)
      · exact ih k v (fun y hy => hl y (List.mem_cons_of_mem _ hy)) hv x h

/-- Every position produced by one restore step carries the restore
timestamp. -/
lemma restoreFold_opened (pairs : List PairRow)
    (tp_sl : List (String × TpSlRef)) (now : ℚ)
    (acc : List (String × PositionState)) (row : PositionRow)
    (h : ∀ x ∈ acc, x.2.opened_ts = now) :
    ∀ x ∈ restoreFold pairs tp_sl now acc row, x.2.opened_ts = now := by
  unfold restoreFold
  dsimp only
  split_ifs with h1 h2 <;>
    first
      | exact h
      | (refine dictUpsert_values (fun q => q.opened_ts = now) acc row.symbol _ h ?_
         rfl)

/-- Every position produced by the restore loop carries the restore
timestamp. -/
lemma restore_foldl_opened (pairs : List PairRow)
    (tp_sl : List (String × TpSlRef)) (now : ℚ) :
    ∀ (rows : List PositionRow) (acc : List (String × PositionState)),
      (∀ x ∈ acc, x.2.opened_ts = now) →
      ∀ x ∈ rows.foldl (restoreFold pairs tp_sl now) acc, x.2.opened_ts = now := by
  intro rows
  induction rows with
  | nil => intro acc h; exact h
  | cons r rs ih =>
    intro acc h
    rw [List.foldl_cons]
    exact ih _ (restoreFold_opened pairs tp_sl now acc r h)

/-- Once the break-even flag is set, `evaluate_exit` never mutates the
position again. -/
lemma evaluate_exit_fst_of_moved (p : PositionState) (last_price : ℚ)
    (s : ExitSettings) (now_ts : ℚ) (h : p.break_even_moved = true) :
    (evaluate_exit p last_price s now_ts).1 = p := by
  unfold evaluate_exit
  simp [h]

/-- If `evaluate_exit` does not take a break-even branch, the returned
decision is the terminal check and the position is untouched. -/
lemma evaluate_exit_of_no_break_even (p : PositionState) (last_price : ℚ)
    (s : ExitSettings) (now_ts : ℚ)
    (h : s.break_even_enabled = false ∨ p.break_even_moved = true) :
    evaluate_exit p last_price s now_ts =
      (p, exit_terminal_checks p last_price s now_ts) := by
  unfold evaluate_exit
  rcases h with h | h <;> simp [h]

/-- The terminal TP/SL/time checks never report a break-even move. -/
lemma exit_terminal_checks_reason_ne_break_even (p : PositionState)
    (last_price : ℚ) (s : ExitSettings) (now_ts : ℚ) :
    (exit_terminal_checks p last_price s now_ts).reason ≠ "break_even_moved" := by
  unfold exit_terminal_checks
  split_ifs <;> simp +decide

/-- A `time_stop` outcome of the terminal checks carries its guard: the
elapsed time reached the configured maximum duration. -/
lemma exit_terminal_checks_time_stop (p : PositionState) (last_price : ℚ)
    (s : ExitSettings) (now_ts : ℚ)
    (h : (exit_terminal_checks p last_price s now_ts).reason = "time_stop") :
    (s.max_trade_duration_sec : ℚ) ≤ now_ts - p.opened_ts := by
  unfold exit_terminal_checks at h
  split_ifs at h <;> (first | assumption | simp +decide at h)

/-- A `break_even_moved` decision can only come from a break-even branch,
which sets the flag on the returned position. -/
lemma evaluate_exit_moved_of_reason (p : PositionState) (last_price : ℚ)
    (s : ExitSettings) (now_ts : ℚ)
    (h : ((evaluate_exit p last_price s now_ts).2).reason = "break_even_moved") :
    ((evaluate_exit p last_price s now_ts).1).break_even_moved = true := by
  by_cases hbe : s.break_even_enabled = true ∧ ¬ p.break_even_moved = true
  · by_cases hside : p.side = "buy"
    · by_cases htr : p.entry_price * (1 + s.break_even_trigger_pct / 100) ≤ last_price
      · simp [evaluate_exit, hbe, hside, htr]
      · rw [show (evaluate_exit p last_price s now_ts) =
            (p, exit_terminal_checks p last_price s now_ts) by
              simp [evaluate_exit, hbe, hside, htr]] at h
        exact absurd h (exit_terminal_checks_reason_ne_break_even p last_price s now_ts)
    · by_cases htr : last_price ≤ p.entry_price * (1 - s.break_even_trigger_pct / 100)
      · simp [evaluate_exit, hbe, hside, htr]
      · rw [show (evaluate_exit p last_price s now_ts) =
            (p, exit_terminal_checks p last_price s now_ts) by
              simp [evaluate_exit, hbe, hside, htr]] at h
        exact absurd h (exit_terminal_checks_reason_ne_break_even p last_price s now_ts)
  · rw [show (evaluate_exit p last_price s now_ts) =
        (p, exit_terminal_checks p last_price s now_ts) by
          unfold evaluate_exit; rw [if_neg hbe]] at h
    exact absurd h (exit_terminal_checks_reason_ne_break_even p last_price s now_ts)

/-- A `time_stop` decision implies the elapsed time since `opened_ts`
reached the configured maximum duration. -/
lemma evaluate_exit_time_stop_elapsed (p : PositionState) (last_price : ℚ)
    (s : ExitSettings) (now_ts : ℚ)
    (h : ((evaluate_exit p last_price s now_ts).2).reason = "time_stop") :
    (s.max_trade_duration_sec : ℚ) ≤ now_ts - p.opened_ts := by
  by_cases hbe : s.break_even_enabled = true ∧ ¬ p.break_even_moved = true
  · by_cases hside : p.side = "buy"
    · by_cases htr : p.entry_price * (1 + s.break_even_trigger_pct / 100) ≤ last_price
      · rw [show ((evaluate_exit p last_price s now_ts).2).reason = "break_even_moved" by
          simp [evaluate_exit, hbe, hside, htr]] at h
        exact absurd h (by decide)
      · rw [show (evaluate_exit p last_price s now_ts) =
            (p, exit_terminal_checks p last_price s now_ts) by
              simp [evaluate_exit, hbe, hside, htr]] at h
        exact exit_terminal_checks_time_stop p last_price s now_ts h
    · by_cases htr : last_price ≤ p.entry_price * (1 - s.break_even_trigger_pct / 100)
      · rw [show ((evaluate_exit p last_price s now_ts).2).reason = "break_even_moved" by
          simp [evaluate_exit, hbe, hside, htr]] at h
        exact absurd h (by decide)
      · rw [show (evaluate_exit p last_price s now_ts) =
            (p, exit_terminal_checks p last_price s now_ts) by
              simp [evaluate_exit, hbe, hside, htr]] at h
        exact exit_terminal_checks_time_stop p last_price s now_ts h
  · rw [show (evaluate_exit p last_price s now_ts) =
        (p, exit_terminal_checks p last_price s now_ts) by
          unfold evaluate_exit; rw [if_neg hbe]] at h
    exact exit_terminal_checks_time_stop p last_price s now_ts h

/-- The positions-side sync step never touches the orders table. -/
lemma syncPositionsFold_orders (acc : Storage × List String)
    (pos : ExchPosition) : ((syncPositionsFold acc pos).1).orders = acc.1.orders := by
  unfold syncPositionsFold Storage.upsert_position
  dsimp only
  split_ifs <;> rfl

/-- Folding the positions-side sync step never touches the orders table. -/
lemma syncPositionsFold_foldl_orders (ps : List ExchPosition) :
    ∀ acc : Storage × List String,
      ((ps.foldl syncPositionsFold acc).1).orders = acc.1.orders := by
  induction ps with
  | nil => intro acc; rfl
  | cons p ps ih =>
    intro acc
    rw [List.foldl_cons, ih, syncPositionsFold_orders]

/-- `delete_positions_not_in` never touches the orders table. -/
lemma delete_positions_not_in_orders (st : Storage) (symbols : List String) :
    (st.delete_positions_not_in symbols).orders = st.orders := rfl

/-- `delete_open_orders_not_in` with no ids keeps exactly the
closed/canceled rows. -/
lemma delete_open_orders_not_in_filter (st : Storage) :
    (st.delete_open_orders_not_in []).orders
      = st.orders.filter (fun r => !(orderRowOpen r)) := by
  unfold Storage.delete_open_orders_not_in
  show st.orders.filter _ = st.orders.filter _
  refine List.filter_congr fun a _ => ?_
  cases h : orderRowOpen a <;> simp [h]

/-- `delete_positions_not_in` with no symbols empties the positions
table. -/
lemma delete_positions_not_in_nil (st : Storage) :
    (st.delete_positions_not_in []).positions = [] := by
  unfold Storage.delete_positions_not_in
  simp

/-! ## Claim theorems -/

/-- C10: for every position and every input, `evaluate_exit` mutates at
most `sl_price` and `break_even_moved`; all other fields of the returned
position equal those of the input position. -/
theorem c10_evaluate_exit_frame (p : PositionState) (last_price : ℚ)
    (s : ExitSettings) (now_ts : ℚ) :
    ((evaluate_exit p last_price s now_ts).1).symbol = p.symbol ∧
    ((evaluate_exit p last_price s now_ts).1).side = p.side ∧
    ((evaluate_exit p last_price s now_ts).1).amount = p.amount ∧
    ((evaluate_exit p last_price s now_ts).1).entry_price = p.entry_price ∧
    ((evaluate_exit p last_price s now_ts).1).opened_ts = p.opened_ts ∧
    ((evaluate_exit p last_price s now_ts).1).tp_price = p.tp_price ∧
    ((evaluate_exit p last_price s now_ts).1).initial_sl_price = p.initial_sl_price ∧
    ((evaluate_exit p last_price s now_ts).1).tp_order_id = p.tp_order_id ∧
    ((evaluate_exit p last_price s now_ts).1).sl_order_id = p.sl_order_id := by
  by_cases hbe : s.break_even_enabled = true ∧ ¬ p.break_even_moved = true
  · by_cases hside : p.side = "buy"
    · by_cases htr : p.entry_price * (1 + s.break_even_trigger_pct / 100) ≤ last_price <;>
        simp [evaluate_exit, hbe, hside, htr]
    · by_cases htr : last_price ≤ p.entry_price * (1 - s.break_even_trigger_pct / 100) <;>
        simp [evaluate_exit, hbe, hside, htr]
  · rw [show (evaluate_exit p last_price s now_ts) =
        (p, exit_terminal_checks p last_price s now_ts) by
          unfold evaluate_exit; rw [if_neg hbe]]
    simp

/-- C4: the break-even ratchet fires at most once per position: once an
evaluation has returned a `break_even_moved` outcome, every subsequent
evaluation — at any price, in particular the same or a more favorable
one — leaves the stop-loss price unchanged. -/
theorem c4_break_even_fires_once (p : PositionState) (price1 now1 : ℚ)
    (s1 : ExitSettings)
    (h : ((evaluate_exit p price1 s1 now1).2).reason = "break_even_moved")
    (price2 now2 : ℚ) (s2 : ExitSettings) :
    ((evaluate_exit (evaluate_exit p price1 s1 now1).1 price2 s2 now2).1).sl_price
      = ((evaluate_exit p price1 s1 now1).1).sl_price := by
  have hm := evaluate_exit_moved_of_reason p price1 s1 now1 h
  rw [evaluate_exit_fst_of_moved _ _ _ _ hm]

/-- Witness for C4 at a concrete position: entry 100, trigger 0.10 %, a
tick to 111 fires the break-even move, and a second evaluation at the same
price leaves the stop-loss where the move put it. -/
theorem c4_break_even_fires_once_witness :
    ((evaluate_exit
        (evaluate_exit
          { symbol := "X", side := "buy", amount := 1, entry_price := 100,
            opened_ts := 0, tp_price := 110, sl_price := 95,
            initial_sl_price := 95 } 111 {} 10).1 111 {} 20).1).sl_price
      = ((evaluate_exit
          { symbol := "X", side := "buy", amount := 1, entry_price := 100,
            opened_ts := 0, tp_price := 110, sl_price := 95,
            initial_sl_price := 95 } 111 {} 10).1).sl_price :=
  c4_break_even_fires_once
    { symbol := "X", side := "buy", amount := 1, entry_price := 100,
      opened_ts := 0, tp_price := 110, sl_price := 95,
      initial_sl_price := 95 } 111 10 {} (by norm_num [evaluate_exit]) 111 20 {}

/-- C5: with break-even disabled or already applied, a tick whose price
touches the take-profit while the maximum trade duration has also elapsed
closes with reason `tp_hit`, not `time_stop`. -/
theorem c5_tp_hit_beats_time_stop (p : PositionState) (last_price now_ts : ℚ)
    (s : ExitSettings)
    (hbe : s.break_even_enabled = false ∨ p.break_even_moved = true)
    (htp : if p.side = "buy" then p.tp_price ≤ last_price
           else last_price ≤ p.tp_price)
    (htime : (s.max_trade_duration_sec : ℚ) ≤ now_ts - p.opened_ts) :
    ((evaluate_exit p last_price s now_ts).2).reason = "tp_hit" ∧
    ((evaluate_exit p last_price s now_ts).2).should_close = true := by
  rw [evaluate_exit_of_no_break_even p last_price s now_ts hbe]
  unfold exit_terminal_checks
  by_cases hs : p.side = "buy" <;> simp [hs] at htp ⊢ <;> simp [htp]

/-- Witness for C5: a long at entry 100 with TP 110, price 111 and 100
seconds elapsed against a 45-second maximum closes as `tp_hit`. -/
theorem c5_tp_hit_beats_time_stop_witness :
    ((evaluate_exit
        { symbol := "X", side := "buy", amount := 1, entry_price := 100,
          opened_ts := 0, tp_price := 110, sl_price := 95,
          initial_sl_price := 95, break_even_moved := true } 111 {} 100).2).reason
      = "tp_hit" ∧
    ((evaluate_exit
        { symbol := "X", side := "buy", amount := 1, entry_price := 100,
          opened_ts := 0, tp_price := 110, sl_price := 95,
          initial_sl_price := 95, break_even_moved := true } 111 {} 100).2).should_close
      = true :=
  c5_tp_hit_beats_time_stop
    { symbol := "X", side := "buy", amount := 1, entry_price := 100,
      opened_ts := 0, tp_price := 110, sl_price := 95,
      initial_sl_price := 95, break_even_moved := true } 111 100 {}
    (Or.inr rfl) (by norm_num) (by norm_num)

/-- C7 counterexample: a non-positive price is not resolved via a safe
default or a rejection-with-reason — `compute_order_amount` raises
`ValueError`, so an exception escapes the sizing operation. -/
theorem c7_counterexample_price_raises :
    compute_order_amount (-1) 10 1 none none none = .error "price must be > 0" := rfl

/-- C7 amended: a non-positive margin is resolved via an explicit
rejection carrying a reason string, but a non-positive price or leverage
raises a `ValueError` that escapes `compute_order_amount` (only the
engine's per-tick catch-all prevents a crash). -/
theorem c7_validation_behavior (price margin_usdt : ℚ) (leverage : ℤ)
    (market_info : Option MarketD) (symbol : Option String)
    (client : Option SizClient) :
    (price ≤ 0 →
      compute_order_amount price margin_usdt leverage market_info symbol client
        = .error "price must be > 0") ∧
    (0 < price → leverage ≤ 0 →
      compute_order_amount price margin_usdt leverage market_info symbol client
        = .error "leverage must be > 0") ∧
    (0 < price → 0 < leverage → margin_usdt ≤ 0 →
      compute_order_amount price margin_usdt leverage market_info symbol client
        = .ok (none, some "Non-positive margin",
          { qty_raw := 0, qty_rounded := 0,
            min_qty := (resolve_min_qty price
              (resolve_market market_info symbol client).1).1,
            min_cost := (resolve_market market_info symbol client).1.cost_min,
            step := (resolve_min_qty price
              (resolve_market market_info symbol client).1).2.1,
            precision_amount := (resolve_min_qty price
              (resolve_market market_info symbol client).1).2.2,
            cost := 0 })) := by
  refine ⟨fun hp => ?_, fun hp hl => ?_, fun hp hl hm => ?_⟩
  · unfold compute_order_amount
    rw [if_pos hp]
  · unfold compute_order_amount
    rw [if_neg (not_le.mpr hp), if_pos hl]
  · unfold compute_order_amount
    rw [if_neg (not_le.mpr hp), if_neg (not_le.mpr hl)]
    simp only [if_pos hm]

/-- Witness for C7 at concrete inputs: price −1 raises, leverage 0 raises,
margin 0 is an explicit rejection. -/
theorem c7_validation_behavior_witness :
    compute_order_amount (-1) 10 1 (some {}) none none = .error "price must be > 0" ∧
    compute_order_amount 1 10 0 (some {}) none none = .error "leverage must be > 0" ∧
    compute_order_amount 1 0 1 (some {}) none none
      = .ok (none, some "Non-positive margin",
        { qty_raw := 0, qty_rounded := 0,
          min_qty := (resolve_min_qty 1 (resolve_market (some {}) none none).1).1,
          min_cost := (resolve_market (some {}) none none).1.cost_min,
          step := (resolve_min_qty 1 (resolve_market (some {}) none none).1).2.1,
          precision_amount :=
            (resolve_min_qty 1 (resolve_market (some {}) none none).1).2.2,
          cost := 0 }) :=
  ⟨(c7_validation_behavior (-1) 10 1 (some {}) none none).1 (by norm_num),
   (c7_validation_behavior 1 10 0 (some {}) none none).2.1 (by norm_num) (by norm_num),
   (c7_validation_behavior 1 0 1 (some {}) none none).2.2 (by norm_num) (by norm_num)
     (by norm_num)⟩

/-- C8: sizing is deterministic and performs no client resolution when
market metadata is supplied: with the same price, margin, leverage and a
supplied (truthy) market dict, the result is identical for any two
clients, and `_resolve_market` never consults the client. -/
theorem c8_sizing_deterministic_no_client (price margin_usdt : ℚ)
    (leverage : ℤ) (m : MarketD) (symbol : Option String)
    (client1 client2 : Option SizClient) :
    compute_order_amount price margin_usdt leverage (some m) symbol client1
      = compute_order_amount price margin_usdt leverage (some m) symbol client2 ∧
    (resolve_market (some m) symbol client1).2 = false := by
  exact ⟨rfl, rfl⟩

/-- C2 counterexample: with one persisted open order and one persisted
position, a failing open-orders fetch does not leave the rows unchanged —
the delete-not-in purge runs against the empty snapshot and deletes both
tables. -/
theorem c2_counterexample_purge_on_failure :
    (sync_exchange_state
      { orders := [{ ts := "t", symbol := "BTC/USDT", kind := "limit",
                     order_id := "O1", status := "open", meta_json := "m" }],
        positions := [{ symbol := "BTC/USDT", side := "long", amount := 1,
                        entry_price := 100, unrealized_pnl := 0,
                        status := "open", meta_json := "m" }] }
      (.error "network down") (.ok [])).1
      = { orders := [], positions := [] } ∧
    ({ orders := [{ ts := "t", symbol := "BTC/USDT", kind := "limit",
                    order_id := "O1", status := "open", meta_json := "m" }],
       positions := [{ symbol := "BTC/USDT", side := "long", amount := 1,
                       entry_price := 100, unrealized_pnl := 0,
                       status := "open", meta_json := "m" }] } : Storage).orders
      ≠ [] := by
  constructor
  · rfl
  · simp

/-- C2 amended: a failed fetch is caught — a warning is recorded and no
exception propagates (the model is a total function) — but the sync is
not skipped: it proceeds with an empty snapshot, so a failed open-orders
fetch purges every persisted open-order row (only closed/canceled rows
survive), and a failed positions fetch purges every persisted position
row. -/
theorem c2_fetch_failure_purges (st : Storage) (e : String)
    (fp : FetchPositions) (fo : Except String (List ExchOrder)) :
    (("State sync: failed to fetch open orders: " ++ e)
      ∈ (sync_exchange_state st (.error e) fp).2.2.2) ∧
    (sync_exchange_state st (.error e) fp).1.orders
      = st.orders.filter (fun r => !(orderRowOpen r)) ∧
    (sync_exchange_state st fo (.err e)).1.positions = [] := by
  refine ⟨?_, ?_, ?_⟩
  · cases fp <;> simp [sync_exchange_state]
  · cases fp <;>
      simp [sync_exchange_state, syncPositionsFold_foldl_orders,
        delete_positions_not_in_orders, Storage.delete_open_orders_not_in,
        delete_open_orders_not_in_filter]
  · cases fo <;>
      simp [sync_exchange_state, delete_positions_not_in_nil]

/-- C9: every position rebuilt from the persisted store has its open
timestamp set to the restore time `now` (not the original open time), so a
`time_stop` exit for a restored position can only fire once the full
configured duration has elapsed since the restore. -/
theorem c9_restore_resets_time_stop_clock (position_rows : List PositionRow)
    (open_orders : List OrderRow) (pairs : List PairRow) (now : ℚ)
    (sym : String) (p : PositionState)
    (hmem : (sym, p) ∈ restore_positions_from_storage position_rows
      open_orders pairs now) :
    p.opened_ts = now ∧
    ∀ last_price now_ts : ℚ, ∀ s : ExitSettings,
      ((evaluate_exit p last_price s now_ts).2).reason = "time_stop" →
      (s.max_trade_duration_sec : ℚ) ≤ now_ts - now := by
  have hopen : p.opened_ts = now := by
    have := restore_foldl_opened pairs
      (open_orders.foldl tpSlFold []) now position_rows []
      (by intro x hx; exact absurd hx (List.not_mem_nil x)) (sym, p) hmem
    exact this
  refine ⟨hopen, fun last_price now_ts s h => ?_⟩
  have := evaluate_exit_time_stop_elapsed p last_price s now_ts h
  rwa [hopen] at this

/-- Witness for C9: restoring a single persisted row (amount 2, entry 100)
at wall-clock 1000 yields a position whose `opened_ts` is 1000. -/
theorem c9_restore_resets_time_stop_clock_witness : c9pos.opened_ts = 1000 :=
  (c9_restore_resets_time_stop_clock
    [{ symbol := "BTC/USDT", side := "long", amount := 2, entry_price := 100,
       unrealized_pnl := 0, status := "open", meta_json := "" }]
    [] [] 1000 "BTC/USDT" c9pos
    (by rw [show restore_positions_from_storage
        [{ symbol := "BTC/USDT", side := "long", amount := 2,
           entry_price := 100, unrealized_pnl := 0, status := "open",
           meta_json := "" }] [] [] 1000 = [("BTC/USDT", c9pos)] from rfl]
        exact List.mem_singleton.mpr rfl)).1

/-- A natural number is below the rounded-up multiple of a positive
divisor. -/
lemma lt_div_succ_mul (a N : ℕ) (h : 0 < N) : a < (a / N + 1) * N := by
  have h1 := Nat.div_add_mod a N
  have h2 := Nat.mod_lt a h
  calc a = N * (a / N) + a % N := h1.symm
  _ < N * (a / N) + N := by omega
  _ = (a / N + 1) * N := by ring

/-- `⌈L/N⌉ · N` covers `L`. -/
lemma ceil_mul_ge (L N : ℕ) (hN : 0 < N) (hL : 0 < L) :
    L ≤ ((L + N - 1) / N) * N := by
  have h0 : L + N - 1 = (L - 1) + N := by omega
  rw [h0, Nat.add_div_right _ hN]
  have h1 := lt_div_succ_mul (L - 1) N hN
  have h2 : L - 1 + 1 = L := Nat.succ_pred_eq_of_pos hL
  exact h2 ▸ Nat.succ_le_of_lt h1

/-- When `N` divides `L`, `⌈L/N⌉ · N = L`. -/
lemma ceil_mul_of_dvd (L N : ℕ) (hN : 0 < N) (hL : 0 < L) (hdvd : N ∣ L) :
    ((L + N - 1) / N) * N = L := by
  obtain ⟨m, rfl⟩ := hdvd
  have h0 : N * m + N - 1 = N * m + (N - 1) := by omega
  rw [h0, Nat.mul_add_div hN, Nat.div_eq_of_lt (by omega : N - 1 < N)]
  ring

/-- `select_round_robin` on a non-empty list with a positive limit,
written out. -/
lemma select_round_robin_eq {α : Type} (ordered : List α) (limit cursor : ℕ)
    (hne : ordered ≠ []) (hl : 0 < limit) :
    select_round_robin ordered limit cursor =
      (((List.range (min limit ordered.length)).map fun i =>
          ordered.get ⟨(cursor % ordered.length + i) % ordered.length,
            Nat.mod_lt _ (List.length_pos.mpr hne)⟩),
       (cursor % ordered.length + min limit ordered.length) % ordered.length) := by
  unfold select_round_robin
  rw [dif_neg (by simp [hne, Nat.pos_iff_ne_zero.mp hl])]

/-- Running the round-robin selection for `t` ticks over an unchanged list
selects exactly the `t·N` consecutive wrapped indices starting at the
cursor. -/
lemma rr_run_flatten {α : Type} (ordered : List α) (hne : ordered ≠ [])
    (N : ℕ) (hN : 0 < N) (hNL : N ≤ ordered.length) :
    ∀ t c : ℕ, (rr_run ordered N t c).1 =
      (List.range (t * N)).map fun i =>
        ordered.get ⟨(c % ordered.length + i) % ordered.length,
          Nat.mod_lt _ (List.length_pos.mpr hne)⟩ := by
  intro t
  induction t with
  | zero => intro c; simp [rr_run]
  | succ t ih =>
    intro c
    show (select_round_robin ordered N c).1
        ++ (rr_run ordered N t (select_round_robin ordered N c).2).1 = _
    rw [select_round_robin_eq ordered N c hne hN, ih]
    dsimp only
    rw [Nat.min_eq_left hNL,
      show (t + 1) * N = N + t * N from by ring, List.range_add,
      List.map_append, List.map_map]
    refine congrArg₂ _ rfl (List.map_congr_left fun i _ => ?_)
    show ordered.get _ = ordered.get _
    congr 1
    apply Fin.ext
    show ((c % ordered.length + N) % ordered.length % ordered.length + i)
        % ordered.length
      = (c % ordered.length + (N + i)) % ordered.length
    rw [Nat.mod_mod_of_dvd _ dvd_rfl, Nat.mod_add_mod, Nat.add_assoc]

/-- C3 counterexample: over the ranked list `[0, 1, 2]` (L = 3) with limit
N = 2 < 3 and cursor 0, iterating for `⌈3/2⌉ = 2` ticks selects candidate
`0` twice, not exactly once (the final tick wraps). -/
theorem c3_counterexample_wrap_selects_twice :
    ((rr_run ([0, 1, 2] : List ℕ) 2 ((3 + 2 - 1) / 2) 0).1).count 0 = 2 := by
  decide

/-- C3 amended: iterating round-robin selection for `⌈L/N⌉` ticks (list
unchanged, cursor 0, 0 < N < L) selects every candidate at least once —
the set of selected candidates is the whole candidate set — and exactly
once when `N` divides `L`, in which case the concatenated selections are a
permutation of the list; when `N` does not divide `L` the last tick wraps
and re-selects `⌈L/N⌉·N − L` leading candidates a second time. -/
theorem c3_round_robin_coverage {α : Type} [DecidableEq α]
    (ordered : List α) (hnd : ordered.Nodup) (N : ℕ) (hN : 0 < N)
    (hNL : N < ordered.length) :
    ((rr_run ordered N ((ordered.length + N - 1) / N) 0).1).toFinset
      = ordered.toFinset ∧
    (N ∣ ordered.length →
      ((rr_run ordered N ((ordered.length + N - 1) / N) 0).1).Perm ordered) := by
  have hne : ordered ≠ [] := by
    intro h
    rw [h] at hNL
    exact absurd hNL (by simp)
  have hL : 0 < ordered.length := List.length_pos.mpr hne
  have hflat := rr_run_flatten ordered hne N hN (le_of_lt hNL)
    ((ordered.length + N - 1) / N) 0
  have hkN : ordered.length ≤ ((ordered.length + N - 1) / N) * N :=
    ceil_mul_ge ordered.length N hN hL
  constructor
  · apply Finset.ext
    intro x
    simp only [List.mem_toFinset]
    constructor
    · intro hx
      rw [hflat] at hx
      rcases List.mem_map.mp hx with ⟨i, _, rfl⟩
      exact List.get_mem _ _ _
    · intro hx
      rcases List.mem_iff_get.mp hx with ⟨⟨j, hj⟩, rfl⟩
      rw [hflat]
      refine List.mem_map.mpr ⟨j, List.mem_range.mpr (lt_of_lt_of_le hj hkN), ?_⟩
      congr 1
      apply Fin.ext
      show (0 % ordered.length + j) % ordered.length = j
      rw [Nat.zero_mod, Nat.zero_add, Nat.mod_eq_of_lt hj]
  · intro hdvd
    rw [hflat, ceil_mul_of_dvd ordered.length N hN hL hdvd]
    refine List.Perm.of_eq ?_
    refine List.ext_getElem (by simp) fun n h1 h2 => ?_
    have hn : n < ordered.length := h2
    simp only [List.getElem_map, List.getElem_range]
    have hidx : (0 % ordered.length + n) % ordered.length = n := by
      rw [Nat.zero_mod, Nat.zero_add, Nat.mod_eq_of_lt hn]
    rw [List.get_eq_getElem]
    simp only [hidx]

/-- Witness for C3 over the list `[0, 1, 2, 3]` with N = 2: two ticks
select every candidate exactly once (2 divides 4). -/
theorem c3_round_robin_coverage_witness :
    ((rr_run ([0, 1, 2, 3] : List ℕ) 2 ((4 + 2 - 1) / 2) 0).1).toFinset
      = ([0, 1, 2, 3] : List ℕ).toFinset ∧
    ((rr_run ([0, 1, 2, 3] : List ℕ) 2 ((4 + 2 - 1) / 2) 0).1).Perm
      [0, 1, 2, 3] :=
  ⟨(c3_round_robin_coverage [0, 1, 2, 3] (by decide) 2 (by decide)
      (by decide)).1,
   (c3_round_robin_coverage [0, 1, 2, 3] (by decide) 2 (by decide)
      (by decide)).2 (by decide)⟩

/-- Flooring to a positive step always yields an integer multiple of the
step. -/
lemma apply_precision_step_multiple (amount : ℚ) (precision : Option ℤ)
    (s : ℚ) (hs : 0 < s) :
    ∃ k : ℤ, (apply_precision amount precision (some s)).1 = k * s := by
  unfold apply_precision
  by_cases ha : amount ≤ 0
  · rw [if_pos ha]
    exact ⟨0, by simp⟩
  · rw [if_neg ha]
    dsimp only
    rw [if_pos hs]
    rcases le_total ((⌊(match precision with
        | some p => if 0 ≤ p then pyRound amount p.toNat else amount
        | none => amount) / s⌋ : ℚ) * s) 0 with h | h
    · exact ⟨0, by rw [max_eq_left h]; simp⟩
    · exact ⟨_, (max_eq_right h :)⟩

/-- When the market supplies a step, `_resolve_min_qty` passes it through
unchanged. -/
lemma resolve_min_qty_step_of_supplied (price : ℚ) (m : MarketD) (s : ℚ)
    (hstep : m.amount_step = some s) :
    (resolve_min_qty price m).2.1 = some s := by
  simp [resolve_min_qty, hstep]

/-- C1 counterexample: venue metadata with minimum quantity 1, step 0.1
and minimum cost 5, at price 100 with margin 10 and leverage 1, returns
quantity 0.1 — below the venue minimum quantity 1, because the high-price
fallback in `_resolve_min_qty` replaced the venue minimum by the step. -/
theorem c1_counterexample_below_venue_min :
    compute_order_amount 100 10 1
      (some { amount_min := some 1, amount_step := some (1/10),
              cost_min := some 5 }) none none
      = .ok (some (1/10), none,
        { qty_raw := 1/10, qty_rounded := 1/10, min_qty := some (1/10),
          min_cost := some 5, step := some (1/10), precision_amount := none,
          cost := 10 }) ∧
    ((1 : ℚ)/10) < 1 := by
  constructor
  · norm_num [compute_order_amount, resolve_market, resolve_min_qty,
      firstSome, apply_precision, pyRound, roundHalfEven]
  · norm_num

/-- C1 amended: for price, margin, leverage all positive and venue
metadata supplying a positive step, a minimum cost, and (after the
documented contract-size scaling and high-price fallback) a resolved
minimum quantity, any quantity returned by `compute_order_amount` is an
exact integer multiple of the step, at least the resolved minimum
quantity, and its notional is at least the venue minimum cost. -/
theorem c1_returned_qty_respects_limits (price margin_usdt : ℚ)
    (leverage : ℤ) (m : MarketD) (s mq mc q : ℚ) (r : Option String)
    (d : SizingDetails)
    (hp : 0 < price) (hm : 0 < margin_usdt) (hl : 0 < leverage)
    (hstep : m.amount_step = some s) (hs : 0 < s)
    (hmq : (resolve_min_qty price m).1 = some mq)
    (hmc : m.cost_min = some mc)
    (hres : compute_order_amount price margin_usdt leverage (some m) none none
      = .ok (some q, r, d)) :
    q = (⌊q / s⌋ : ℚ) * s ∧ mq ≤ q ∧ mc ≤ q * price := by
  unfold compute_order_amount at hres
  rw [if_neg (not_le.mpr hp), if_neg (not_le.mpr hl),
    if_neg (not_le.mpr hm)] at hres
  dsimp only [resolve_market] at hres
  rw [resolve_min_qty_step_of_supplied price m s hstep, hmq, hmc] at hres
  by_cases h0 :
      (apply_precision (margin_usdt * (leverage : ℚ) / price)
        (resolve_min_qty price m).2.2 (some s)).1 ≤ 0
  · rw [if_pos h0] at hres
    simp at hres
  rw [if_neg h0] at hres
  dsimp only at hres
  by_cases h1 :
      (apply_precision (margin_usdt * (leverage : ℚ) / price)
        (resolve_min_qty price m).2.2 (some s)).1 < mq
  · rw [if_pos h1] at hres
    simp at hres
  rw [if_neg h1] at hres
  by_cases h2 :
      (apply_precision (margin_usdt * (leverage : ℚ) / price)
        (resolve_min_qty price m).2.2 (some s)).1 * price < mc
  · rw [if_pos h2] at hres
    simp at hres
  rw [if_neg h2] at hres
  simp only [Except.ok.injEq, Prod.mk.injEq, Option.some.injEq] at hres
  obtain ⟨hq, -, -⟩ := hres
  subst hq
  refine ⟨?_, not_lt.mp h1, not_lt.mp h2⟩
  obtain ⟨k, hk⟩ := apply_precision_step_multiple
    (margin_usdt * (leverage : ℚ) / price) (resolve_min_qty price m).2.2 s hs
  rw [hk]
  have hsne : s ≠ 0 := ne_of_gt hs
  rw [show (k : ℚ) * s / s = (k : ℚ) from mul_div_cancel_right₀ _ hsne,
    Int.floor_intCast]

/-- Witness for C1 at the spec scenario: margin 20, leverage 5, price
50000, step 0.0001, min qty 0.0001, min cost 5 → quantity 0.002, a
multiple of the step, above the minimum quantity, with notional 100 ≥ 5. -/
theorem c1_returned_qty_respects_limits_witness :
    (1/500 : ℚ) = (⌊(1/500 : ℚ) / (1/10000)⌋ : ℚ) * (1/10000) ∧
    (1/10000 : ℚ) ≤ 1/500 ∧ (5 : ℚ) ≤ (1/500) * 50000 :=
  c1_returned_qty_respects_limits 50000 20 5
    { amount_min := some (1/10000), amount_step := some (1/10000),
      cost_min := some 5 }
    (1/10000) (1/10000) 5 (1/500) none
    { qty_raw := 1/500, qty_rounded := 1/500, min_qty := some (1/10000),
      min_cost := some 5, step := some (1/10000), precision_amount := none,
      cost := 100 }
    (by norm_num) (by norm_num) (by norm_num) rfl (by norm_num)
    (by norm_num [resolve_min_qty, firstSome]) rfl
    (by norm_num [compute_order_amount, resolve_market, resolve_min_qty,
      firstSome, apply_precision, pyRound, roundHalfEven])

/-- One limit attempt against a client whose polls return a non-terminal
status with insufficient fill: with a one-second timeout the attempt
fetches the ticker, places the offset limit order, polls once, cancels,
re-checks once, then either falls back to a market order (last attempt)
or retries. -/
lemma c6_attempt_step (symbol side : String) (amount mfp bps P : ℚ)
    (client : ExecClient) (tk : Ticker) (lo op : PyOrder)
    (h_tick : client.fetch_ticker symbol = .ok tk)
    (hP : orChainQ [tk.last, tk.close] = P)
    (hPpos : 0 < P)
    (h_limit : ∀ price : ℚ,
      client.create_limit_order symbol side amount price = .ok lo)
    (h_poll : client.fetch_order (orStr lo.id "") symbol = .ok op)
    (h_status : pyToLower (op.status.getD "") = "open")
    (h_nofill : (result_from_order op amount mfp).success = false)
    (n : ℕ) (evs : List ExecEvent) :
    limit_attempt_loop symbol side amount 1 true bps mfp client (n + 1) evs =
      (if n = 0 then
        place_market symbol side amount mfp client
          (evs ++ [.fetchTicker symbol,
            .createLimit symbol side amount
              (if pyToLower side = "buy" then P * (1 - bps / 10000)
               else P * (1 + bps / 10000)),
            .fetchOrder (orStr lo.id "") symbol,
            .cancelOrder (orStr lo.id "") symbol,
            .fetchOrder (orStr lo.id "") symbol])
      else
        limit_attempt_loop symbol side amount 1 true bps mfp client n
          (evs ++ [.fetchTicker symbol,
            .createLimit symbol side amount
              (if pyToLower side = "buy" then P * (1 - bps / 10000)
               else P * (1 + bps / 10000)),
            .fetchOrder (orStr lo.id "") symbol,
            .cancelOrder (orStr lo.id "") symbol,
            .fetchOrder (orStr lo.id "") symbol])) := by
  have hor : ¬(("open" : String) = "closed" ∨ ("open" : String) = "filled") := by
    decide
  simp only [limit_attempt_loop, poll_order_loop, h_tick, hP, h_limit,
    h_poll, h_status, h_nofill, hPpos.not_le, hor, if_false, ite_false,
    Bool.false_eq_true, if_neg, List.append_assoc, List.cons_append,
    List.nil_append, List.append_nil]
  norm_num

/-- C6: a limit entry with retry_count 1, one-second timeout and market
fallback enabled, against an exchange whose status polls report "open"
forever with insufficient fill, performs exactly two limit attempts (each
ending in a cancel and one post-cancel re-check), then submits exactly one
market order and returns that market order's result. -/
theorem c6_limit_retries_then_market_fallback (symbol side : String)
    (amount mfp bps P : ℚ) (client : ExecClient) (tk : Ticker)
    (lo op mo : PyOrder)
    (h_tick : client.fetch_ticker symbol = .ok tk)
    (hP : orChainQ [tk.last, tk.close] = P)
    (hPpos : 0 < P)
    (h_limit : ∀ price : ℚ,
      client.create_limit_order symbol side amount price = .ok lo)
    (h_poll : client.fetch_order (orStr lo.id "") symbol = .ok op)
    (h_status : pyToLower (op.status.getD "") = "open")
    (h_nofill : (result_from_order op amount mfp).success = false)
    (h_market : client.create_market_order symbol side amount = .ok mo)
    (hamt : 0 < amount) :
    place_entry symbol side amount
      { entry_order_type := "limit", min_fill_pct := mfp,
        entry_retry_count := 1, entry_timeout_sec := 1,
        allow_market_fallback := true, limit_offset_bps := bps } client
      = (result_from_order mo amount mfp,
         [.fetchTicker symbol,
          .createLimit symbol side amount
            (if pyToLower side = "buy" then P * (1 - bps / 10000)
             else P * (1 + bps / 10000)),
          .fetchOrder (orStr lo.id "") symbol,
          .cancelOrder (orStr lo.id "") symbol,
          .fetchOrder (orStr lo.id "") symbol,
          .fetchTicker symbol,
          .createLimit symbol side amount
            (if pyToLower side = "buy" then P * (1 - bps / 10000)
             else P * (1 + bps / 10000)),
          .fetchOrder (orStr lo.id "") symbol,
          .cancelOrder (orStr lo.id "") symbol,
          .fetchOrder (orStr lo.id "") symbol,
          .createMarket symbol side amount]) ∧
    ((place_entry symbol side amount
      { entry_order_type := "limit", min_fill_pct := mfp,
        entry_retry_count := 1, entry_timeout_sec := 1,
        allow_market_fallback := true, limit_offset_bps := bps } client).2).countP
      ExecEvent.isCreateLimit = 2 ∧
    ((place_entry symbol side amount
      { entry_order_type := "limit", min_fill_pct := mfp,
        entry_retry_count := 1, entry_timeout_sec := 1,
        allow_market_fallback := true, limit_offset_bps := bps } client).2).countP
      ExecEvent.isCancel = 2 ∧
    ((place_entry symbol side amount
      { entry_order_type := "limit", min_fill_pct := mfp,
        entry_retry_count := 1, entry_timeout_sec := 1,
        allow_market_fallback := true, limit_offset_bps := bps } client).2).countP
      ExecEvent.isCreateMarket = 1 := by
  have hmain : place_entry symbol side amount
      { entry_order_type := "limit", min_fill_pct := mfp,
        entry_retry_count := 1, entry_timeout_sec := 1,
        allow_market_fallback := true, limit_offset_bps := bps } client
      = (result_from_order mo amount mfp,
         [.fetchTicker symbol,
          .createLimit symbol side amount
            (if pyToLower side = "buy" then P * (1 - bps / 10000)
             else P * (1 + bps / 10000)),
          .fetchOrder (orStr lo.id "") symbol,
          .cancelOrder (orStr lo.id "") symbol,
          .fetchOrder (orStr lo.id "") symbol,
          .fetchTicker symbol,
          .createLimit symbol side amount
            (if pyToLower side = "buy" then P * (1 - bps / 10000)
             else P * (1 + bps / 10000)),
          .fetchOrder (orStr lo.id "") symbol,
          .cancelOrder (orStr lo.id "") symbol,
          .fetchOrder (orStr lo.id "") symbol,
          .createMarket symbol side amount]) := by
    have e1 : place_entry symbol side amount
        { entry_order_type := "limit", min_fill_pct := mfp,
          entry_retry_count := 1, entry_timeout_sec := 1,
          allow_market_fallback := true, limit_offset_bps := bps } client
        = limit_attempt_loop symbol side amount 1 true bps mfp client 2 [] := by
      unfold place_entry place_limit_with_timeout
      rw [if_neg (not_le.mpr hamt)]
      dsimp only
      rw [show pyToLower (pyTrim "limit") = "limit" from by decide,
        if_neg (by decide : ¬("limit" : String) = "market"), if_pos rfl,
        show ((max 0 1 : ℤ) + 1).toNat = 2 from by decide,
        show (max 1 (1 : ℤ)).toNat = 1 from by decide]
    rw [e1, show (2 : ℕ) = 1 + 1 from rfl,
      c6_attempt_step symbol side amount mfp bps P client tk lo op h_tick hP
        hPpos h_limit h_poll h_status h_nofill 1 [],
      if_neg (by norm_num : ¬(1 : ℕ) = 0),
      c6_attempt_step symbol side amount mfp bps P client tk lo op h_tick hP
        hPpos h_limit h_poll h_status h_nofill 0 _,
      if_pos rfl]
    unfold place_market
    rw [h_market]
    simp
  refine ⟨hmain, ?_, ?_, ?_⟩ <;>
    rw [hmain] <;>
    simp [List.countP_cons, List.countP_nil, ExecEvent.isCreateLimit,
      ExecEvent.isCancel, ExecEvent.isCreateMarket]

/-- Witness for C6 against the concrete client `c6client`: two limit
attempts (place, one poll, cancel, one re-check each), then a single
market order whose result is returned. -/
theorem c6_limit_retries_then_market_fallback_witness :
    place_entry "BTC/USDT" "buy" 1
      { entry_order_type := "limit", min_fill_pct := 80,
        entry_retry_count := 1, entry_timeout_sec := 1,
        allow_market_fallback := true, limit_offset_bps := 2 } c6client
      = (result_from_order
          { id := some "M1", status := some "closed", filled := some 1,
            average := some 100 } 1 80,
         [.fetchTicker "BTC/USDT",
          .createLimit "BTC/USDT" "buy" 1 (100 * (1 - 2 / 10000)),
          .fetchOrder "L1" "BTC/USDT",
          .cancelOrder "L1" "BTC/USDT",
          .fetchOrder "L1" "BTC/USDT",
          .fetchTicker "BTC/USDT",
          .createLimit "BTC/USDT" "buy" 1 (100 * (1 - 2 / 10000)),
          .fetchOrder "L1" "BTC/USDT",
          .cancelOrder "L1" "BTC/USDT",
          .fetchOrder "L1" "BTC/USDT",
          .createMarket "BTC/USDT" "buy" 1]) ∧
    ((place_entry "BTC/USDT" "buy" 1
      { entry_order_type := "limit", min_fill_pct := 80,
        entry_retry_count := 1, entry_timeout_sec := 1,
        allow_market_fallback := true, limit_offset_bps := 2 } c6client).2).countP
      ExecEvent.isCreateLimit = 2 ∧
    ((place_entry "BTC/USDT" "buy" 1
      { entry_order_type := "limit", min_fill_pct := 80,
        entry_retry_count := 1, entry_timeout_sec := 1,
        allow_market_fallback := true, limit_offset_bps := 2 } c6client).2).countP
      ExecEvent.isCancel = 2 ∧
    ((place_entry "BTC/USDT" "buy" 1
      { entry_order_type := "limit", min_fill_pct := 80,
        entry_retry_count := 1, entry_timeout_sec := 1,
        allow_market_fallback := true, limit_offset_bps := 2 } c6client).2).countP
      ExecEvent.isCreateMarket = 1 :=
  c6_limit_retries_then_market_fallback "BTC/USDT" "buy" 1 80 2 100 c6client
    { last := some 100 }
    { id := some "L1", status := some "open", filled := some 0 }
    { id := some "L1", status := some "open", filled := some 0 }
    { id := some "M1", status := some "closed", filled := some 1,
      average := some 100 }
    rfl (by norm_num [orChainQ]) (by norm_num) (fun _ => rfl) rfl (by decide)
    (by norm_num [result_from_order, orStr]) rfl (by norm_num)

end FlipperCore
